import Mathlib

/-!
Verification development for the `datasets-organelle-igr` repository.

Part 1 embeds the taxonomic tree reconciliation of `src/scripts/brms.py`
(`get_first_descendants`, `validade_tree` and the reconciliation portion of
`run_single`, lines 91-187).

Part 2 embeds the record extraction and parallel aggregation of
`src/scripts/summary_igs.py` (`summary_igs`, `igs_multiple`) and the
join-and-derive stage of `run_single` (lines 190-203).

Identifiers (NCBI taxids) are modelled as `Int`; the string/int casts in the
Python code are bijective on decimal integer strings, so both representations
are collapsed to `Int`.  External collaborators (the `ete4` `NCBITaxa`
taxonomy gateway) are modelled abstractly: `get_topology` becomes an arbitrary
function from the requested identifier list to the leaf set of the returned
tree, and the `species` SQLite table becomes a list of `(taxid, parent)` rows,
over which the SQL aggregate query of `get_first_descendants` is interpreted
directly.
-/

namespace BrmsModel

/-- Log levels of the Python `logging` module that the reconciliation code
emits. -/
inductive LogLevel where
  | debug
  | info
  | warning
  | error
  deriving DecidableEq, Repr

/-- Abstract model of the taxonomy gateway (`ete4.NCBITaxa`):
`topo` maps the identifier collection passed to `get_topology` to the leaf
name set of the resulting tree (leaves are taxids, kept as `Int`), and
`species` is the row set of the `species` SQLite table as `(taxid, parent)`
pairs, queried by `get_first_descendants`. -/
structure Gateway where
  topo : List Int → Finset Int
  species : List (Int × Int)

/-- Embedding of `get_first_descendants` (brms.py lines 20-41): the SQL query
`SELECT parent, MIN(taxid) FROM species WHERE parent IN (taxids) GROUP BY
parent` as a partial map from parent taxid to its minimum descendant taxid.
A parent outside `taxids`, or with no row in `species`, is absent from the
returned dictionary (modelled as `none`). -/
def get_first_descendants (species : List (Int × Int)) (taxids : Finset Int)
    (p : Int) : Option Int :=
  if p ∈ taxids then
    ((species.filter (fun r => r.2 = p)).map Prod.fst).min?
  else
    none

/-- Embedding of polars `replace_strict(mapping, default = current column)`:
a value that is a key of the mapping is replaced by its image, any other
value is left unchanged. -/
def replace_strict (mapping : Int → Option Int) (v : Int) : Int :=
  (mapping v).getD v

/-- Embedding of `validade_tree` (brms.py lines 43-68).  Returns the missing
set (`taxa - tree_taxa`), the extra set (`tree_taxa - taxa`) and the log
records it emits: a warning when `missing` is non-empty and an error when
`extra` is non-empty. -/
def validade_tree (tree_taxa taxa : Finset Int) :
    Finset Int × Finset Int × List LogLevel :=
  let missing_in_tree := taxa \ tree_taxa
  let extra_in_tree := tree_taxa \ taxa
  (missing_in_tree, extra_in_tree,
    (if missing_in_tree ≠ ∅ then [LogLevel.warning] else []) ++
    (if extra_in_tree ≠ ∅ then [LogLevel.error] else []))

/-- The dataset table of `run_single`: the original `ncbi_taxid` column and
the derived `taxon_tree` column, which is `none` as long as no
`with_columns(... .alias("taxon_tree"))` has been executed. -/
structure TsvTable where
  ncbi_taxid : List Int
  taxon_tree : Option (List Int)
  deriving DecidableEq, Repr

/-- Embedding of `tsv.with_columns(expr.alias("taxon_tree"))`: only the
`taxon_tree` column is (re)assigned, every other column is untouched. -/
def with_taxon_tree (t : TsvTable) (col : List Int) : TsvTable :=
  { t with taxon_tree := some col }

/-- Result of `validade_tree` for the initial tree (brms.py line 117): the
tree is built from the `ncbi_taxid` column `ids` and compared against the set
of those identifiers. -/
def valid1 (gw : Gateway) (ids : List Int) :
    Finset Int × Finset Int × List LogLevel :=
  validade_tree (gw.topo ids) ids.toFinset

/-- The `missing_in_tree` set of the initial validation. -/
def missing_round1 (gw : Gateway) (ids : List Int) : Finset Int :=
  (valid1 gw ids).1

/-- The `extra_in_tree` set of the initial validation. -/
def extra_round1 (gw : Gateway) (ids : List Int) : Finset Int :=
  (valid1 gw ids).2.1

/-- The log records of the initial validation. -/
def logs_round1 (gw : Gateway) (ids : List Int) : List LogLevel :=
  (valid1 gw ids).2.2

/-- The `taxon_tree` column produced by the first substitution round
(brms.py lines 129-135): each `ncbi_taxid` value is pushed through the
first-descendant mapping computed for the missing taxa, with the original
value as default. -/
def column_round2 (gw : Gateway) (ids : List Int) : List Int :=
  ids.map (replace_strict (get_first_descendants gw.species (missing_round1 gw ids)))

/-- Result of `validade_tree` for the rebuilt tree (brms.py lines 137-142):
the tree is rebuilt from the `taxon_tree` column and compared against the
set of its values. -/
def valid2 (gw : Gateway) (ids : List Int) :
    Finset Int × Finset Int × List LogLevel :=
  validade_tree (gw.topo (column_round2 gw ids)) (column_round2 gw ids).toFinset

/-- The `missing_in_tree` set of the second validation. -/
def missing_round2 (gw : Gateway) (ids : List Int) : Finset Int :=
  (valid2 gw ids).1

/-- The log records of the second validation. -/
def logs_round2 (gw : Gateway) (ids : List Int) : List LogLevel :=
  (valid2 gw ids).2.2

/-- The `taxon_tree` column produced by the second substitution round
(brms.py lines 152-160): each round-2 `taxon_tree` value is pushed through
the first-descendant mapping computed for the still-missing taxa. -/
def column_round3 (gw : Gateway) (ids : List Int) : List Int :=
  (column_round2 gw ids).map
    (replace_strict (get_first_descendants gw.species (missing_round2 gw ids)))

/-- Result of `validade_tree` for the second rebuilt tree (brms.py lines
162-167). -/
def valid3 (gw : Gateway) (ids : List Int) :
    Finset Int × Finset Int × List LogLevel :=
  validade_tree (gw.topo (column_round3 gw ids)) (column_round3 gw ids).toFinset

/-- The `missing_in_tree` set of the third validation. -/
def missing_round3 (gw : Gateway) (ids : List Int) : Finset Int :=
  (valid3 gw ids).1

/-- The log records of the third validation. -/
def logs_round3 (gw : Gateway) (ids : List Int) : List LogLevel :=
  (valid3 gw ids).2.2

/-- Trace of one reconciliation run (brms.py lines 111-187): whether
`sys.exit(1)` was reached, how many trees were constructed via
`get_topology`, how many `replace_strict` substitution rounds were applied,
the table at the end (or at the moment of exit), the identifier list from
which the tree written to `tree.nwk` was built (`none` when the run exited
before `tree.write`), and the log records emitted by `validade_tree` and by
the final give-up branch. -/
structure ReconcileTrace where
  exited : Bool
  tree_builds : Nat
  substitutions : Nat
  table : TsvTable
  written_tree_input : Option (List Int)
  logs : List LogLevel
  deriving DecidableEq, Repr

/-- Embedding of the reconciliation portion of `run_single` (brms.py lines
111-187), from the first `get_topology` call to `tree.write`.  The control
flow mirrors the source: an initial tree construction and validation; if
missing and extra are both empty (line 119) the `taxon_tree` column is set
to `ncbi_taxid`; if missing is non-empty (line 124), a first-descendant
substitution and a rebuilt tree, then (line 145) at most one further
substitution and rebuild; if taxa are still missing after the third
validation (line 169) the process exits with `sys.exit(1)` before
`tree.write` is reached.  The per-round values are the named functions
above. -/
def run_single_reconcile (gw : Gateway) (t : TsvTable) : ReconcileTrace :=
  let ids := t.ncbi_taxid
  let t1 := if missing_round1 gw ids = ∅ ∧ extra_round1 gw ids = ∅
    then with_taxon_tree t ids else t
  if missing_round1 gw ids ≠ ∅ then
    let t2 := with_taxon_tree t1 (column_round2 gw ids)
    if missing_round2 gw ids ≠ ∅ then
      let t3 := with_taxon_tree t2 (column_round3 gw ids)
      if missing_round3 gw ids ≠ ∅ then
        { exited := true, tree_builds := 3, substitutions := 2, table := t3,
          written_tree_input := none,
          logs := logs_round1 gw ids ++ logs_round2 gw ids ++
            logs_round3 gw ids ++ [LogLevel.error] }
      else
        { exited := false, tree_builds := 3, substitutions := 2, table := t3,
          written_tree_input := some (column_round3 gw ids),
          logs := logs_round1 gw ids ++ logs_round2 gw ids ++ logs_round3 gw ids }
    else
      { exited := false, tree_builds := 2, substitutions := 1, table := t2,
        written_tree_input := some (column_round2 gw ids),
        logs := logs_round1 gw ids ++ logs_round2 gw ids }
  else
    { exited := false, tree_builds := 1, substitutions := 0, table := t1,
      written_tree_input := some ids,
      logs := logs_round1 gw ids }

/-- Claim C1: the retry budget is respected.  At most 3 trees are ever
constructed and at most 2 substitution rounds are ever applied; when taxa
are still missing after the third validation the run exits fatally
(`sys.exit(1)`) without writing a tree and without a third substitution;
when the missing set becomes empty at any of the three validations the run
does not exit and the tree is written. -/
theorem reconcile_retry_budget (gw : Gateway) (t : TsvTable) :
    ((run_single_reconcile gw t).tree_builds ≤ 3 ∧
     (run_single_reconcile gw t).substitutions ≤ 2) ∧
    (missing_round1 gw t.ncbi_taxid ≠ ∅ →
     missing_round2 gw t.ncbi_taxid ≠ ∅ →
     missing_round3 gw t.ncbi_taxid ≠ ∅ →
       (run_single_reconcile gw t).exited = true ∧
       (run_single_reconcile gw t).tree_builds = 3 ∧
       (run_single_reconcile gw t).substitutions = 2 ∧
       (run_single_reconcile gw t).written_tree_input = none) ∧
    ((missing_round1 gw t.ncbi_taxid = ∅ ∨
      missing_round2 gw t.ncbi_taxid = ∅ ∨
      missing_round3 gw t.ncbi_taxid = ∅) →
       (run_single_reconcile gw t).exited = false ∧
       ((run_single_reconcile gw t).written_tree_input).isSome = true) := by
  by_cases h1 : missing_round1 gw t.ncbi_taxid = ∅
  · simp [run_single_reconcile, h1]
  · by_cases h2 : missing_round2 gw t.ncbi_taxid = ∅
    · simp [run_single_reconcile, h1, h2]
    · by_cases h3 : missing_round3 gw t.ncbi_taxid = ∅ <;>
        simp [run_single_reconcile, h1, h2, h3]

/-- Witness for C1 at a gateway whose trees never contain any requested
leaf: after exactly 3 tree constructions and 2 substitutions the run exits
fatally. -/
theorem reconcile_retry_budget_witness :
    missing_round1 ⟨fun _ => ∅, []⟩ [1] ≠ ∅ ∧
    missing_round2 ⟨fun _ => ∅, []⟩ [1] ≠ ∅ ∧
    missing_round3 ⟨fun _ => ∅, []⟩ [1] ≠ ∅ ∧
    (run_single_reconcile ⟨fun _ => ∅, []⟩ ⟨[1], none⟩).exited = true ∧
    (run_single_reconcile ⟨fun _ => ∅, []⟩ ⟨[1], none⟩).tree_builds = 3 ∧
    (run_single_reconcile ⟨fun _ => ∅, []⟩ ⟨[1], none⟩).substitutions = 2 ∧
    (run_single_reconcile ⟨fun _ => ∅, []⟩ ⟨[1], none⟩).written_tree_input
      = none :=
  ⟨by decide, by decide, by decide,
    ((reconcile_retry_budget ⟨fun _ => ∅, []⟩ ⟨[1], none⟩).2.1
      (by decide) (by decide) (by decide)).1,
    ((reconcile_retry_budget ⟨fun _ => ∅, []⟩ ⟨[1], none⟩).2.1
      (by decide) (by decide) (by decide)).2.1,
    ((reconcile_retry_budget ⟨fun _ => ∅, []⟩ ⟨[1], none⟩).2.1
      (by decide) (by decide) (by decide)).2.2.1,
    ((reconcile_retry_budget ⟨fun _ => ∅, []⟩ ⟨[1], none⟩).2.1
      (by decide) (by decide) (by decide)).2.2.2⟩

/-- Claim C9: the original `ncbi_taxid` column is never modified by
reconciliation — every `with_columns` call writes only the `taxon_tree`
column, so the table's `ncbi_taxid` column at the end of the run (in every
branch, including the fatal one) equals the input column. -/
theorem reconcile_preserves_ncbi_taxid (gw : Gateway) (t : TsvTable) :
    (run_single_reconcile gw t).table.ncbi_taxid = t.ncbi_taxid := by
  by_cases h1 : missing_round1 gw t.ncbi_taxid = ∅
  · by_cases hx : extra_round1 gw t.ncbi_taxid = ∅ <;>
      simp [run_single_reconcile, with_taxon_tree, h1, hx]
  · by_cases h2 : missing_round2 gw t.ncbi_taxid = ∅
    · simp [run_single_reconcile, with_taxon_tree, h1, h2]
    · by_cases h3 : missing_round3 gw t.ncbi_taxid = ∅ <;>
        simp [run_single_reconcile, with_taxon_tree, h1, h2, h3]

/-- Counterexample to claim C2 as stated: a gateway whose tree for the
single identifier 5 has leaves {5, 99} gives an empty missing set but a
non-empty extra set; the run succeeds immediately, yet no `taxon_tree`
column is created (brms.py line 119 requires missing AND extra to be empty
before assigning the identity column), so the output does not gain a
`taxon_tree` column equal to `ncbi_taxid`. -/
theorem reconcile_identity_remap_counterexample :
    missing_round1 ⟨fun _ => ({5, 99} : Finset Int), []⟩ [5] = ∅ ∧
    (run_single_reconcile ⟨fun _ => ({5, 99} : Finset Int), []⟩
      ⟨[5], none⟩).exited = false ∧
    (run_single_reconcile ⟨fun _ => ({5, 99} : Finset Int), []⟩
      ⟨[5], none⟩).table.taxon_tree = none := by
  decide

/-- Claim C2 (amended): when the initial validation finds nothing missing,
the run succeeds immediately — one tree construction, no substitution, the
initial tree written.  The identity remapping (`taxon_tree` equal to
`ncbi_taxid` row by row) is produced exactly when the extra set is also
empty; when extra leaves are present the run still succeeds immediately but
the `taxon_tree` column is left unassigned. -/
theorem reconcile_identity_remap (gw : Gateway) (t : TsvTable)
    (h1 : missing_round1 gw t.ncbi_taxid = ∅) :
    (run_single_reconcile gw t).exited = false ∧
    (run_single_reconcile gw t).tree_builds = 1 ∧
    (run_single_reconcile gw t).substitutions = 0 ∧
    (run_single_reconcile gw t).written_tree_input = some t.ncbi_taxid ∧
    (extra_round1 gw t.ncbi_taxid = ∅ →
      (run_single_reconcile gw t).table.taxon_tree = some t.ncbi_taxid) ∧
    (extra_round1 gw t.ncbi_taxid ≠ ∅ →
      (run_single_reconcile gw t).table.taxon_tree = t.taxon_tree) := by
  by_cases hx : extra_round1 gw t.ncbi_taxid = ∅ <;>
    simp [run_single_reconcile, with_taxon_tree, h1, hx]

/-- Witness for the amended C2 at a gateway that returns exactly the
requested leaves: identity remapping on the two-row dataset [3, 7]. -/
theorem reconcile_identity_remap_witness :
    missing_round1 ⟨fun l => l.toFinset, []⟩ [3, 7] = ∅ ∧
    ((run_single_reconcile ⟨fun l => l.toFinset, []⟩ ⟨[3, 7], none⟩).exited
        = false ∧
     (run_single_reconcile ⟨fun l => l.toFinset, []⟩
        ⟨[3, 7], none⟩).tree_builds = 1 ∧
     (run_single_reconcile ⟨fun l => l.toFinset, []⟩
        ⟨[3, 7], none⟩).substitutions = 0 ∧
     (run_single_reconcile ⟨fun l => l.toFinset, []⟩
        ⟨[3, 7], none⟩).written_tree_input = some [3, 7] ∧
     (extra_round1 ⟨fun l => l.toFinset, []⟩ [3, 7] = ∅ →
       (run_single_reconcile ⟨fun l => l.toFinset, []⟩
          ⟨[3, 7], none⟩).table.taxon_tree = some [3, 7]) ∧
     (extra_round1 ⟨fun l => l.toFinset, []⟩ [3, 7] ≠ ∅ →
       (run_single_reconcile ⟨fun l => l.toFinset, []⟩
          ⟨[3, 7], none⟩).table.taxon_tree = none)) :=
  ⟨by decide,
    reconcile_identity_remap ⟨fun l => l.toFinset, []⟩ ⟨[3, 7], none⟩
      (by decide)⟩

/-- Claim C8: extra leaves alone never make the run fail.  When the initial
validation finds no missing taxa but some extra leaves, the extra set is
logged at error level, the run does not exit, and the tree is written from
the original identifier list. -/
theorem reconcile_extra_only_nonfatal (gw : Gateway) (t : TsvTable)
    (h1 : missing_round1 gw t.ncbi_taxid = ∅)
    (h2 : extra_round1 gw t.ncbi_taxid ≠ ∅) :
    LogLevel.error ∈ (run_single_reconcile gw t).logs ∧
    (run_single_reconcile gw t).exited = false ∧
    (run_single_reconcile gw t).written_tree_input = some t.ncbi_taxid ∧
    (run_single_reconcile gw t).logs = [LogLevel.error] := by
  have h1' := h1
  have h2' := h2
  rw [missing_round1, valid1, validade_tree] at h1'
  rw [extra_round1, valid1, validade_tree] at h2'
  simp only at h1' h2'
  simp [run_single_reconcile, logs_round1, valid1, validade_tree, h1, h1', h2']

/-- Witness for C8: a tree with the extra leaf 99 still lets the run of the
one-row dataset [5] proceed to writing the tree, with an error-level log. -/
theorem reconcile_extra_only_nonfatal_witness :
    missing_round1 ⟨fun _ => ({5, 99} : Finset Int), []⟩ [5] = ∅ ∧
    extra_round1 ⟨fun _ => ({5, 99} : Finset Int), []⟩ [5] ≠ ∅ ∧
    (LogLevel.error ∈ (run_single_reconcile ⟨fun _ => ({5, 99} : Finset Int), []⟩
        ⟨[5], none⟩).logs ∧
     (run_single_reconcile ⟨fun _ => ({5, 99} : Finset Int), []⟩
        ⟨[5], none⟩).exited = false ∧
     (run_single_reconcile ⟨fun _ => ({5, 99} : Finset Int), []⟩
        ⟨[5], none⟩).written_tree_input = some [5] ∧
     (run_single_reconcile ⟨fun _ => ({5, 99} : Finset Int), []⟩
        ⟨[5], none⟩).logs = [LogLevel.error]) :=
  ⟨by decide, by decide,
    reconcile_extra_only_nonfatal ⟨fun _ => ({5, 99} : Finset Int), []⟩
      ⟨[5], none⟩ (by decide) (by decide)⟩

/-- Claim C3: for every parent in the queried set that has at least one
descendant row in the `species` table, `get_first_descendants` returns the
numerically minimum descendant taxid; applying the returned mapping through
`replace_strict` replaces exactly the identifiers with a resolved
descendant, and every identifier absent from the mapping — in particular
every identifier outside the queried set — is left unchanged. -/
theorem get_first_descendants_min (species : List (Int × Int))
    (taxids : Finset Int) (p : Int) (hp : p ∈ taxids)
    (hc : (species.filter (fun r => r.2 = p)).map Prod.fst ≠ []) :
    (∃ d, get_first_descendants species taxids p = some d ∧
       d ∈ (species.filter (fun r => r.2 = p)).map Prod.fst ∧
       ∀ c ∈ (species.filter (fun r => r.2 = p)).map Prod.fst, d ≤ c) ∧
    (∀ v d, get_first_descendants species taxids v = some d →
       replace_strict (get_first_descendants species taxids) v = d) ∧
    (∀ v, get_first_descendants species taxids v = none →
       replace_strict (get_first_descendants species taxids) v = v) ∧
    (∀ v, v ∉ taxids →
       replace_strict (get_first_descendants species taxids) v = v) := by
  refine ⟨?_, ?_, ?_, ?_⟩
  · cases hmin : ((species.filter (fun r => r.2 = p)).map Prod.fst).min? with
    | none => exact absurd (List.min?_eq_none_iff.mp hmin) hc
    | some d =>
      haveI : Std.Antisymm ((· : Int) ≤ ·) := ⟨fun h h' => le_antisymm h h'⟩
      obtain ⟨hmem, hlb⟩ :=
        (List.min?_eq_some_iff (fun a : Int => le_refl a)
          (fun a b : Int => min_choice a b)
          (fun a b c : Int => le_min_iff)).mp hmin
      exact ⟨d, by simp [get_first_descendants, hp, hmin], hmem, hlb⟩
  · intro v d hv
    simp [replace_strict, hv]
  · intro v hv
    simp [replace_strict, hv]
  · intro v hv
    simp [replace_strict, get_first_descendants, hv]

/-- Witness for C3 with the constructed taxonomy of the spec: parent 100
with children 105, 102 and 110; the returned descendant is minimal, and the
mapping leaves unresolved identifiers unchanged. -/
theorem get_first_descendants_min_witness :
    (100 : Int) ∈ ({100} : Finset Int) ∧
    (([((105 : Int), (100 : Int)), (102, 100), (110, 100)].filter
        (fun r => r.2 = 100)).map Prod.fst ≠ []) ∧
    ((∃ d, get_first_descendants [((105 : Int), (100 : Int)), (102, 100), (110, 100)]
        {100} 100 = some d ∧
       d ∈ (([((105 : Int), (100 : Int)), (102, 100), (110, 100)].filter
          (fun r => r.2 = 100)).map Prod.fst) ∧
       ∀ c ∈ (([((105 : Int), (100 : Int)), (102, 100), (110, 100)].filter
          (fun r => r.2 = 100)).map Prod.fst), d ≤ c) ∧
     (∀ v d, get_first_descendants [((105 : Int), (100 : Int)), (102, 100), (110, 100)]
          {100} v = some d →
        replace_strict (get_first_descendants
          [((105 : Int), (100 : Int)), (102, 100), (110, 100)] {100}) v = d) ∧
     (∀ v, get_first_descendants [((105 : Int), (100 : Int)), (102, 100), (110, 100)]
          {100} v = none →
        replace_strict (get_first_descendants
          [((105 : Int), (100 : Int)), (102, 100), (110, 100)] {100}) v = v) ∧
     (∀ v, v ∉ ({100} : Finset Int) →
        replace_strict (get_first_descendants
          [((105 : Int), (100 : Int)), (102, 100), (110, 100)] {100}) v = v)) ∧
    get_first_descendants [((105 : Int), (100 : Int)), (102, 100), (110, 100)]
      {100} 100 = some 102 :=
  ⟨by decide, by decide,
    get_first_descendants_min [((105 : Int), (100 : Int)), (102, 100), (110, 100)]
      {100} 100 (by decide) (by decide),
    by decide⟩

end BrmsModel

namespace IgsModel

/-- Embedding of the `_RE_strand` search `\|([+-])\|` (summary_igs.py line
15) over the character list of a source descriptor: the first occurrence of
a `+` or `-` enclosed in pipes is captured; on a failed match at a position
the scan advances by one character, exactly as `re.search` does. -/
def strand_scan : List Char → Option String
  | '|' :: '+' :: '|' :: _ => some "+"
  | '|' :: '-' :: '|' :: _ => some "-"
  | _ :: rest => strand_scan rest
  | [] => none

/-- The strand extraction `str.extract(_RE_strand)` on one string. -/
def extract_strand (s : String) : Option String :=
  strand_scan s.data

/-- One row of the GFF3 input after the regex extraction steps of
`summary_igs` (summary_igs.py lines 26-44): `type`, `start` and `stop` (the
`end` column; `end` is a reserved word here) come straight from the file;
`id_x`, `up_x`, `dw_x`, `source_up_x` and `source_dw_x` are the `Option`
results of the `ID=([^;]+)` extraction and of the `tigre.clean` regex
extractions, which live in the external `tigre` library and are therefore
taken as abstract inputs. -/
structure GffRowX where
  type : String
  start : Int
  stop : Int
  id_x : Option String
  up_x : Option String
  dw_x : Option String
  source_up_x : Option String
  source_dw_x : Option String
  deriving DecidableEq, Repr

/-- One record produced by `summary_igs` (the dict of column values of one
output row, in the column order fixed at summary_igs.py lines 54-67). -/
structure IgsRecord where
  ID : Option String
  AN : String
  UP : String
  DOWN : String
  Pair : String
  Polarity : String
  Length : Int
  Merged : Int
  source_up : Option String
  source_dw : Option String
  deriving DecidableEq, Repr

/-- The `up-strand` column value: strand extracted from `source_up`, with
`fillna("+")` (summary_igs.py line 48). -/
def up_strand (r : GffRowX) : String :=
  (r.source_up_x.bind extract_strand).getD "+"

/-- The `dw-strand` column value (summary_igs.py line 49). -/
def dw_strand (r : GffRowX) : String :=
  (r.source_dw_x.bind extract_strand).getD "+"

/-- Embedding of the per-row derivations of `summary_igs` (summary_igs.py
lines 33-51): `Length = end - start + 1`, `Merged` flags non-intergenic
rows, `UP`/`DOWN` default to the sentinels "RS"/"RE", `Pair` concatenates
them, and `Polarity` is the raw two-character strand pair. -/
def summary_igs_row (an : String) (r : GffRowX) : IgsRecord :=
  { ID := r.id_x
    AN := an
    UP := r.up_x.getD "RS"
    DOWN := r.dw_x.getD "RE"
    Pair := r.up_x.getD "RS" ++ "-" ++ r.dw_x.getD "RE"
    Polarity := up_strand r ++ dw_strand r
    Length := r.stop - r.start + 1
    Merged := if r.type ≠ "intergenic_region" then 1 else 0
    source_up := r.source_up_x
    source_dw := r.source_dw_x }

/-- Embedding of `summary_igs` for one sample: every parsed row of the GFF
file becomes one record. -/
def summary_igs (an : String) (rows : List GffRowX) : List IgsRecord :=
  rows.map (summary_igs_row an)

/-- Claim C6: the derived `Length` of every extracted record equals
`end - start + 1`, both endpoints included; in particular a record with
start 100 and end 199 has length 100. -/
theorem igs_length_inclusive (an : String) (r : GffRowX) :
    (summary_igs_row an r).Length = r.stop - r.start + 1 ∧
    (summary_igs_row an
      ⟨"intergenic_region", 100, 199, none, none, none, none, none⟩).Length
      = 100 := by
  constructor
  · rfl
  · rfl

/-- The strand scan only ever captures "+" or "-". -/
lemma strand_scan_cases (l : List Char) :
    strand_scan l = none ∨ strand_scan l = some "+" ∨ strand_scan l = some "-" := by
  induction l using strand_scan.induct <;> simp_all [strand_scan]

/-- The `up-strand` value is always "+" or "-". -/
lemma up_strand_cases (r : GffRowX) : up_strand r = "+" ∨ up_strand r = "-" := by
  rw [up_strand]
  cases hs : r.source_up_x.bind extract_strand with
  | none => simp
  | some t =>
    cases hu : r.source_up_x with
    | none => rw [hu] at hs; simp at hs
    | some s =>
      rw [hu] at hs
      have hs' : extract_strand s = some t := hs
      rcases strand_scan_cases s.data with h | h | h <;>
        rw [extract_strand] at hs' <;> rw [h] at hs' <;>
        simp_all

/-- The `dw-strand` value is always "+" or "-". -/
lemma dw_strand_cases (r : GffRowX) : dw_strand r = "+" ∨ dw_strand r = "-" := by
  rw [dw_strand]
  cases hs : r.source_dw_x.bind extract_strand with
  | none => simp
  | some t =>
    cases hu : r.source_dw_x with
    | none => rw [hu] at hs; simp at hs
    | some s =>
      rw [hu] at hs
      have hs' : extract_strand s = some t := hs
      rcases strand_scan_cases s.data with h | h | h <;>
        rw [extract_strand] at hs' <;> rw [h] at hs' <;>
        simp_all

/-- Embedding of the polars `replace` mapping applied to the `Polarity`
column in `run_single` (brms.py lines 193-197): the four strand pairs map to
"same"/"opposite", any other value is left unchanged (polars `replace`
keeps unmapped values). -/
def polarity_replace (s : String) : String :=
  if s = "++" then "same"
  else if s = "--" then "same"
  else if s = "+-" then "opposite"
  else if s = "-+" then "opposite"
  else s

/-- Claim C7: the extractor stores the raw strand pair — never a
classification — in `Polarity`, the strand characters are each "+" or "-",
and the `polarity_bin` value computed in the join-and-derive stage is
"same" exactly when the two strand characters agree and "opposite"
otherwise. -/
theorem polarity_class_join_stage (an : String) (r : GffRowX) :
    (summary_igs_row an r).Polarity = up_strand r ++ dw_strand r ∧
    (up_strand r = "+" ∨ up_strand r = "-") ∧
    (dw_strand r = "+" ∨ dw_strand r = "-") ∧
    (summary_igs_row an r).Polarity ≠ "same" ∧
    (summary_igs_row an r).Polarity ≠ "opposite" ∧
    polarity_replace ((summary_igs_row an r).Polarity) =
      (if up_strand r = dw_strand r then "same" else "opposite") := by
  refine ⟨rfl, up_strand_cases r, dw_strand_cases r, ?_, ?_, ?_⟩ <;>
    rcases up_strand_cases r with hu | hu <;>
    rcases dw_strand_cases r with hd | hd <;>
    simp [summary_igs_row, polarity_replace, hu, hd]

/-- The pandas sort key of one record: the `(AN, ID)` pair, ordered
lexicographically with a missing `ID` (NaN) placed last, as
`sort_values(by=["AN", "ID"])` does with its default `na_position="last"`. -/
def igs_key (r : IgsRecord) : Lex (String × WithTop String) :=
  toLex (r.AN, (match r.ID with
    | none => (⊤ : WithTop String)
    | some s => (s : WithTop String)))

/-- Boolean comparison used to model `df.sort_values(by=["AN", "ID"])`. -/
def igs_le (a b : IgsRecord) : Bool :=
  decide (igs_key a ≤ igs_key b)

/-- The final sort of `igs_multiple` (summary_igs.py line 114). -/
def sort_records (rs : List IgsRecord) : List IgsRecord :=
  rs.mergeSort igs_le

/-- Fan-in of `igs_multiple` (summary_igs.py lines 109-114): the per-task
record lists are concatenated in the order the tasks completed
(`as_completed`), then the resulting table is sorted by `(AN, ID)`. -/
def igs_multiple_agg (completed : List (List IgsRecord)) : List IgsRecord :=
  sort_records completed.flatten

lemma igs_le_trans (a b c : IgsRecord) :
    igs_le a b → igs_le b c → igs_le a c := by
  simp only [igs_le, decide_eq_true_eq]
  exact le_trans

lemma igs_le_total (a b : IgsRecord) : igs_le a b || igs_le b a := by
  simp only [igs_le, Bool.or_eq_true, decide_eq_true_eq]
  exact le_total _ _

/-- A list sorted by the weak key order whose keys are pairwise distinct is
sorted by the strict key order. -/
lemma pairwise_key_lt_of_sorted {l : List IgsRecord}
    (hs : l.Pairwise (fun a b => igs_le a b = true))
    (hnd : (l.map igs_key).Nodup) :
    l.Pairwise (fun a b => igs_key a < igs_key b) := by
  have hne : l.Pairwise (fun a b => igs_key a ≠ igs_key b) :=
    List.pairwise_map.mp hnd
  exact (hs.and hne).imp (fun h =>
    lt_of_le_of_ne (by simpa [igs_le] using h.1) h.2)

/-- Claim C4: the aggregation output is independent of task completion
order.  For a fixed task list whose records have pairwise distinct
`(AN, ID)` keys, any two completion orders of the per-task results — both
permutations of the submitted task outputs — produce identical sorted
tables. -/
theorem igs_aggregation_deterministic (tasks : List (String × List GffRowX))
    (c1 c2 : List (List IgsRecord))
    (h1 : c1.Perm (tasks.map (fun t => summary_igs t.1 t.2)))
    (h2 : c2.Perm (tasks.map (fun t => summary_igs t.1 t.2)))
    (hnd : (((tasks.map (fun t => summary_igs t.1 t.2)).flatten).map
      igs_key).Nodup) :
    igs_multiple_agg c1 = igs_multiple_agg c2 := by
  have hf : c1.flatten.Perm c2.flatten :=
    (h1.flatten).trans (h2.flatten).symm
  have hnd1 : (c1.flatten.map igs_key).Nodup :=
    ((h1.flatten).map igs_key).nodup_iff.mpr hnd
  have hnd2 : (c2.flatten.map igs_key).Nodup :=
    ((h2.flatten).map igs_key).nodup_iff.mpr hnd
  have hp1 : (sort_records c1.flatten).Perm c1.flatten :=
    List.mergeSort_perm _ _
  have hp2 : (sort_records c2.flatten).Perm c2.flatten :=
    List.mergeSort_perm _ _
  have hs1 : (sort_records c1.flatten).Pairwise (fun a b => igs_le a b = true) :=
    List.sorted_mergeSort igs_le_trans igs_le_total _
  have hs2 : (sort_records c2.flatten).Pairwise (fun a b => igs_le a b = true) :=
    List.sorted_mergeSort igs_le_trans igs_le_total _
  have hsnd1 : ((sort_records c1.flatten).map igs_key).Nodup :=
    (hp1.map igs_key).nodup_iff.mpr hnd1
  have hsnd2 : ((sort_records c2.flatten).map igs_key).Nodup :=
    (hp2.map igs_key).nodup_iff.mpr hnd2
  haveI : IsAntisymm IgsRecord (fun a b => igs_key a < igs_key b) :=
    ⟨fun _ _ hab hba => absurd hba (lt_asymm hab)⟩
  exact List.eq_of_perm_of_sorted
    (hp1.trans (hf.trans hp2.symm))
    (pairwise_key_lt_of_sorted hs1 hsnd1)
    (pairwise_key_lt_of_sorted hs2 hsnd2)

/-- Witness for C4: two samples "A" and "B" with one record each; the two
completion orders (submission order and its reverse) yield the same sorted
table. -/
theorem igs_aggregation_deterministic_witness :
    ([summary_igs "A" [⟨"intergenic_region", 1, 10, some "ig1",
        none, none, none, none⟩],
      summary_igs "B" [⟨"intergenic_region", 5, 20, some "ig2",
        none, none, none, none⟩]].Perm
      ([("A", [⟨"intergenic_region", 1, 10, some "ig1", none, none, none, none⟩]),
        ("B", [⟨"intergenic_region", 5, 20, some "ig2", none, none, none,
          none⟩])].map (fun t => summary_igs t.1 t.2))) ∧
    ([summary_igs "B" [⟨"intergenic_region", 5, 20, some "ig2",
        none, none, none, none⟩],
      summary_igs "A" [⟨"intergenic_region", 1, 10, some "ig1",
        none, none, none, none⟩]].Perm
      ([("A", [⟨"intergenic_region", 1, 10, some "ig1", none, none, none, none⟩]),
        ("B", [⟨"intergenic_region", 5, 20, some "ig2", none, none, none,
          none⟩])].map (fun t => summary_igs t.1 t.2))) ∧
    ((([("A", [⟨"intergenic_region", 1, 10, some "ig1", none, none, none, none⟩]),
        ("B", [⟨"intergenic_region", 5, 20, some "ig2", none, none, none,
          none⟩])].map (fun t => summary_igs t.1 t.2)).flatten.map
            igs_key).Nodup) ∧
    igs_multiple_agg
      [summary_igs "A" [⟨"intergenic_region", 1, 10, some "ig1",
        none, none, none, none⟩],
       summary_igs "B" [⟨"intergenic_region", 5, 20, some "ig2",
        none, none, none, none⟩]] =
    igs_multiple_agg
      [summary_igs "B" [⟨"intergenic_region", 5, 20, some "ig2",
        none, none, none, none⟩],
       summary_igs "A" [⟨"intergenic_region", 1, 10, some "ig1",
        none, none, none, none⟩]] :=
  ⟨List.Perm.refl _,
   List.Perm.swap _ _ _,
   by decide,
   igs_aggregation_deterministic
     [("A", [⟨"intergenic_region", 1, 10, some "ig1", none, none, none, none⟩]),
      ("B", [⟨"intergenic_region", 5, 20, some "ig2", none, none, none, none⟩])]
     _ _ (List.Perm.refl _) (List.Perm.swap _ _ _) (by decide)⟩

/-- Embedding of the polars `left.join(right, on = key, how = "left")` of
`run_single` (brms.py line 191) at row level: every left row is paired with
every right row whose key matches; a left row with no match is kept once,
with null right-hand fields. -/
def left_join {α β : Type} (ka : α → String) (kb : β → String)
    (left : List α) (right : List β) : List (α × Option β) :=
  left.flatMap (fun a =>
    let ms := right.filter (fun b => kb b == ka a)
    if ms.isEmpty then [(a, (none : Option β))]
    else ms.map (fun b => (a, some b)))

/-- Under pairwise-distinct right-hand keys, at most one right row matches
any key. -/
lemma filter_key_length_le_one {β : Type} (kb : β → String) (right : List β)
    (hnd : (right.map kb).Nodup) (k : String) :
    (right.filter (fun b => kb b == k)).length ≤ 1 := by
  induction right with
  | nil => simp
  | cons b bs ih =>
    simp only [List.map_cons, List.nodup_cons] at hnd
    by_cases hb : kb b = k
    · have hemp : bs.filter (fun b' => kb b' == k) = [] := by
        refine List.filter_eq_nil_iff.mpr (fun b' hb' => ?_)
        simp only [beq_iff_eq]
        intro hk
        exact hnd.1 (hb ▸ hk ▸ List.mem_map_of_mem kb hb')
      simp [List.filter_cons, hb, hemp]
    · simpa [List.filter_cons, hb] using ih hnd.2

/-- Counterexample to claim C5 as stated: with two metadata rows sharing
the key "A", the left join of a one-row aggregated table against them has
two rows, not one — the join duplicates the aggregated row once per
matching metadata row. -/
theorem left_join_row_count_counterexample :
    (left_join (fun s : String => s) (fun p : String × Int => p.1)
      ["A"] [("A", 1), ("A", 2)]).length = 2 ∧
    (["A"] : List String).length = 1 := by
  constructor
  · rfl
  · rfl

/-- Claim C5 (amended): when no two metadata rows share a sample
identifier, the left join has exactly as many rows as the aggregated table,
and every aggregated row without a matching metadata row appears in the
output paired with null metadata. -/
theorem left_join_preserves_rows {α β : Type} (ka : α → String)
    (kb : β → String) (left : List α) (right : List β)
    (hnd : (right.map kb).Nodup) :
    (left_join ka kb left right).length = left.length ∧
    (∀ a ∈ left, (∀ b ∈ right, kb b ≠ ka a) →
      (a, (none : Option β)) ∈ left_join ka kb left right) := by
  constructor
  · induction left with
    | nil => rfl
    | cons a l ih =>
      have hcell : (if (right.filter (fun b => kb b == ka a)).isEmpty
          then [(a, (none : Option β))]
          else (right.filter (fun b => kb b == ka a)).map
            (fun b => (a, some b))).length = 1 := by
        by_cases he : (right.filter (fun b => kb b == ka a)).isEmpty
        · simp [he]
        · have h1 := filter_key_length_le_one kb right hnd (ka a)
          have h0 : (right.filter (fun b => kb b == ka a)).length ≠ 0 := by
            simpa [List.isEmpty_iff_length_eq_zero] using he
          rw [if_neg he, List.length_map]
          omega
      simp only [left_join, List.flatMap_cons, List.length_append,
        List.length_cons] at ih ⊢
      rw [hcell, ih]
      omega
  · intro a ha hnomatch
    have hemp : right.filter (fun b => kb b == ka a) = [] :=
      List.filter_eq_nil_iff.mpr (fun b hb => by
        simpa [beq_iff_eq] using hnomatch b hb)
    refine List.mem_flatMap.mpr ⟨a, ha, ?_⟩
    simp [hemp]

/-- Witness for the amended C5: a two-row aggregated table joined against a
single-row metadata table with distinct keys keeps exactly two rows, and
the unmatched row "B" carries null metadata. -/
theorem left_join_preserves_rows_witness :
    ((([("A", 7)] : List (String × Int)).map Prod.fst).Nodup) ∧
    ((left_join (fun s : String => s) (fun p : String × Int => p.1)
        ["A", "B"] [("A", 7)]).length = (["A", "B"] : List String).length ∧
     (∀ a ∈ (["A", "B"] : List String),
       (∀ b ∈ ([("A", 7)] : List (String × Int)), b.1 ≠ a) →
         (a, (none : Option (String × Int))) ∈
           left_join (fun s : String => s) (fun p : String × Int => p.1)
             ["A", "B"] [("A", 7)])) :=
  ⟨by decide,
   left_join_preserves_rows (fun s : String => s)
     (fun p : String × Int => p.1) ["A", "B"] [("A", 7)] (by decide)⟩

/-- Embedding of the conditional `GI` drop of `run_single` (brms.py lines
99-100) at the column-name level: when a `GI` column is present it is
removed, otherwise the schema is unchanged. -/
def drop_gi (cols : List String) : List String :=
  if "GI" ∈ cols then cols.filter (fun c => c != "GI") else cols

/-- Column schema of a polars left join `left.join(right, on = key)`
(brms.py line 191): all left columns followed by the right columns other
than the join key. -/
def join_columns (left_cols right_cols : List String) (key : String) :
    List String :=
  left_cols ++ right_cols.filter (fun c => c != key)

/-- Claim C10: a `GI` metadata column is dropped before any further
processing and never reaches the merged output (provided the aggregated
table itself has no `GI` column), while every other metadata column
survives into the join schema. -/
theorem gi_column_dropped (tsv_cols igs_cols : List String) (key : String)
    (hkey : key ∈ igs_cols) :
    "GI" ∉ drop_gi tsv_cols ∧
    ("GI" ∉ igs_cols → "GI" ∉ join_columns igs_cols (drop_gi tsv_cols) key) ∧
    (∀ c ∈ tsv_cols, c ≠ "GI" →
      c ∈ join_columns igs_cols (drop_gi tsv_cols) key) := by
  have hgi : "GI" ∉ drop_gi tsv_cols := by
    by_cases h : "GI" ∈ tsv_cols
    · simp [drop_gi, h, List.mem_filter]
    · simp [drop_gi, h]
  refine ⟨hgi, fun higs => ?_, fun c hc hne => ?_⟩
  · simp only [join_columns, List.mem_append, List.mem_filter]
    rintro (h | ⟨h, -⟩)
    · exact higs h
    · exact hgi h
  · have hcd : c ∈ drop_gi tsv_cols := by
      by_cases h : "GI" ∈ tsv_cols
      · simp [drop_gi, h, List.mem_filter, hc, hne]
      · simpa [drop_gi, h] using hc
    by_cases hck : c = key
    · exact List.mem_append.mpr (Or.inl (hck ▸ hkey))
    · refine List.mem_append.mpr (Or.inr ?_)
      simp [List.mem_filter, hcd, hck]

/-- Witness for C10 on a metadata schema that carries a `GI` column. -/
theorem gi_column_dropped_witness :
    ("AN" ∈ (["AN", "ID"] : List String)) ∧
    ("GI" ∉ drop_gi ["AN", "GI", "ncbi_taxid"] ∧
     ("GI" ∉ (["AN", "ID"] : List String) →
       "GI" ∉ join_columns ["AN", "ID"] (drop_gi ["AN", "GI", "ncbi_taxid"])
         "AN") ∧
     (∀ c ∈ (["AN", "GI", "ncbi_taxid"] : List String), c ≠ "GI" →
       c ∈ join_columns ["AN", "ID"] (drop_gi ["AN", "GI", "ncbi_taxid"])
         "AN")) :=
  ⟨by decide,
   gi_column_dropped ["AN", "GI", "ncbi_taxid"] ["AN", "ID"] "AN" (by decide)⟩

end IgsModel
